import Mathlib

/-!
Shallow embedding of the conversation persistence and orchestration core of
`src/app.py` (a Streamlit chat front-end): the message/usage data model, the
cost accountant `calculate_conversation_cost`, the reply normalization of
`chatbot_reply`, and the file-backed conversation store with its lifecycle
operations (`load_current_conversation`, `save_conversation`,
`create_new_conversation`, `switch_conversation`, `list_conversations`,
`delete_conversation`).

Modelling conventions:
* Python ints are `Nat`, Python floats (prices, costs, elapsed seconds) are
  `Rat` so the accounting algebra is exact.
* A dict key that may be absent is an `Option` field; `dict.get(k, 0)`
  becomes `Option.getD _ 0`.
* The `db/conversations/*.json` directory is a finite map from the integer
  file stem to the file's content, represented as an association list
  `List (Nat × Record)`; the order of the list carries no meaning (the
  filesystem is unordered) and file names are unique.  A file whose JSON is
  malformed is `Record.corrupt`.
* `db/current.json` is `Option PtrRecord` (`none` = the file does not exist).
* Python exceptions that escape a function are the `Except.error` branch of
  its result; `StoreError.decodeError` is `json.JSONDecodeError`.
* `st.session_state` keys that a function reads with `.get` may be absent,
  so the `Session` fields are `Option`s.
* `st.rerun`, `st.success`, spinners and all other UI calls are ignored, as
  is directory creation (`ensure_db_structure`).
-/

/-- Roles of chat messages (the strings `"system" | "user" | "assistant"`). -/
inductive Role
  | system
  | user
  | assistant
deriving DecidableEq

/-- The `usage` dict attached to a message.  Each field mirrors a dict key
that may be absent (the source reads them with `usage.get(key, 0)`); the
empty dict `{}` is `Usage.empty`. -/
structure Usage where
  prompt_tokens : Option Nat
  completion_tokens : Option Nat
  total_tokens : Option Nat
  response_time : Option Rat
deriving DecidableEq

/-- The empty usage dict `{}`. -/
def Usage.empty : Usage := ⟨none, none, none, none⟩

/-- A chat message dict.  `usage = none` models a dict with no `"usage"` key
at all (e.g. a user message); `usage = some u` models a dict whose
`"usage"` key holds the dict `u` (possibly empty). -/
structure Message where
  role : Role
  content : String
  usage : Option Usage
deriving DecidableEq

/-- One entry of `MODEL_PRICING`: description and per-token prices. -/
structure Pricing where
  opis_modelu : String
  input_tokens : Rat
  output_tokens : Rat
deriving DecidableEq

/-- The `MODEL_PRICING` table from the source (prices per single token). -/
def MODEL_PRICING : List (String × Pricing) :=
  [ ("gpt-5-nano",
      { opis_modelu := "Klasyfikacja, podsumowania. Potrafi przetwarzać obrazy i tekst, ale nie jest dostępny w wersji audio."
        input_tokens := 0.05 / 1000000
        output_tokens := 0.40 / 1000000 }),
    ("gpt-5-mini",
      { opis_modelu := "Workflow, szybkie zadania. Potrafi przetwarzać obrazy i tekst, ale nie jest dostępny w wersji audio."
        input_tokens := 0.25 / 1000000
        output_tokens := 2.00 / 1000000 }),
    ("gpt-5",
      { opis_modelu := "Programowanie, skomplikowane zadania. Potrafi przetwarzać obrazy i tekst, ale nie jest dostępny w wersji audio."
        input_tokens := 1.25 / 1000000
        output_tokens := 10.00 / 1000000 }) ]

/-- `DEFAULT_PERSONALITY` (the triple-quoted Python string after `.strip()`). -/
def DEFAULT_PERSONALITY : String :=
  "Jesteś pomocnym asystentem AI, który odpowiada na pytania użytkownika w sposób:\n- Zwięzły i zrozumiały\n- Merytoryczny i dokładny\n- Przyjazny i profesjonalny\n- Dostosowany do kontekstu rozmowy\n\nJeśli otrzymasz dokument do analizy, przeanalizuj go dokładnie i odpowiedz na pytania na jego podstawie."

/-- The loop body of `calculate_conversation_cost`: one iteration of
`for message in messages`. -/
def cost_step (pricing : Pricing) (acc : Rat × Rat) (message : Message) : Rat × Rat :=
  match message.usage with
  | some usage =>
      (acc.1 + (usage.prompt_tokens.getD 0 : Rat) * pricing.input_tokens
             + (usage.completion_tokens.getD 0 : Rat) * pricing.output_tokens,
       acc.2 + usage.response_time.getD 0)
  | none => acc

/-- `calculate_conversation_cost(messages, pricing)`: folds the loop body
over the messages starting from `total_cost = 0.0, total_time = 0.0` and
returns `(total_cost, total_time)`. -/
def calculate_conversation_cost (messages : List Message) (pricing : Pricing) : Rat × Rat :=
  messages.foldl (cost_step pricing) (0, 0)

/-- The cost contribution of a single message (proof-level view of one
iteration of the loop in `calculate_conversation_cost`). -/
def message_cost (pricing : Pricing) (message : Message) : Rat :=
  match message.usage with
  | some usage =>
      (usage.prompt_tokens.getD 0 : Rat) * pricing.input_tokens
        + (usage.completion_tokens.getD 0 : Rat) * pricing.output_tokens
  | none => 0

/-- The response-time contribution of a single message. -/
def message_time (message : Message) : Rat :=
  match message.usage with
  | some usage => usage.response_time.getD 0
  | none => 0

/-- The `response.usage` object of a successful completion call. -/
structure ApiUsage where
  prompt_tokens : Nat
  completion_tokens : Nat
  total_tokens : Nat
deriving DecidableEq

/-- A successful response of the external model client:
`choices[0].message.content` (which may be `None`), `choices[0].finish_reason`
and the optional `usage` object. -/
structure ModelResponse where
  content : Option String
  finish_reason : String
  usage : Option ApiUsage
deriving DecidableEq

/-- The fixed truncation notice appended when `finish_reason == "length"`. -/
def truncation_notice : String :=
  "\n\n⚠️ **Odpowiedź została obcięta** - osiągnięto limit tokenów. Zwiększ `max_completion_tokens` aby uzyskać pełną odpowiedź."

/-- The fixed user-facing error template of `chatbot_reply`'s `except` branch,
embedding `str(e)`. -/
def error_reply_content (e : String) : String :=
  "Przepraszam, wystąpił błąd podczas generowania odpowiedzi.\n\n**Szczegóły błędu:**\n" ++ e
    ++ "\n\nSpróbuj ponownie lub sprawdź ustawienia."

/-- The preamble under which a document's text is appended to the system
prompt. -/
def document_preamble : String :=
  "\n\nOtrzymałeś również następujący dokument do analizy:\n\n"

/-- The request message list assembled by `chatbot_reply`: system prompt
(personality, plus the document text under the fixed preamble when present),
then the history window with only `role`/`content` copied, then the new user
turn. -/
def build_request (personality : String) (user_prompt : String) (memory : List Message)
    (file_content : Option String) : List (Role × String) :=
  let system_content :=
    match file_content with
    | some fc => personality ++ document_preamble ++ fc
    | none => personality
  (Role.system, system_content) :: (memory.map fun m => (m.role, m.content))
    ++ [(Role.user, user_prompt)]

/-- `chatbot_reply(user_prompt, memory, file_content)`.  The external call
`openai_client.chat.completions.create` together with the measured wall-clock
time is abstracted as the `outcome` argument: `Except.error e` models the
call raising an exception whose `str` is `e` (caught by the `except` branch),
`Except.ok (response, elapsed)` a successful response. -/
def chatbot_reply (user_prompt : String) (memory : List Message) (file_content : Option String)
    (personality : String) (outcome : Except String (ModelResponse × Rat)) : Message :=
  let _request := build_request personality user_prompt memory file_content
  match outcome with
  | Except.error e =>
      { role := Role.assistant
        content := error_reply_content e
        usage := some Usage.empty }
  | Except.ok (response, elapsed) =>
      let usage : Usage :=
        match response.usage with
        | some u =>
            { prompt_tokens := some u.prompt_tokens
              completion_tokens := some u.completion_tokens
              total_tokens := some u.total_tokens
              response_time := some elapsed }
        | none => Usage.empty
      let content0 := response.content.getD ""
      let content :=
        if response.finish_reason = "length" then content0 ++ truncation_notice else content0
      { role := Role.assistant, content := content, usage := some usage }

/-- A persisted conversation record (the content of `{id}.json`). -/
structure Conversation where
  id : Nat
  name : String
  chatbot_personality : String
  messages : List Message
deriving DecidableEq

/-- The content of one file of `db/conversations/`: well-formed JSON holding
a conversation, or malformed bytes. -/
inductive Record
  | ok (c : Conversation)
  | corrupt (raw : String)
deriving DecidableEq

/-- The content of `db/current.json`: well-formed
`{"current_conversation_id": id}`, or malformed bytes. -/
inductive PtrRecord
  | ok (id : Nat)
  | corrupt (raw : String)
deriving DecidableEq

/-- The on-disk store: `db/conversations/*.json` keyed by integer file stem,
and `db/current.json` (`none` when absent). -/
structure Store where
  conversations : List (Nat × Record)
  current : Option PtrRecord
deriving DecidableEq

/-- The error taxonomy for store reads: a missing record
(`FileNotFoundError` / a failed `.exists()` check) versus a record that
exists but whose JSON is malformed (`json.JSONDecodeError`). -/
inductive StoreError
  | notFound
  | decodeError
deriving DecidableEq

/-- The session-state keys the persistence layer touches.  Fields are
`Option`s because `st.session_state.get(key)` may find the key absent. -/
structure Session where
  conversation_id : Option Nat
  conversation_name : Option String
  messages : Option (List Message)
  chatbot_personality : Option String
deriving DecidableEq

/-- Reading the file `{id}.json`: the first (unique) entry with that stem. -/
def lookup_record (id : Nat) : List (Nat × Record) → Option Record
  | [] => none
  | (k, r) :: rest => if k = id then some r else lookup_record id rest

/-- `Store.get store id` is the content of `db/conversations/{id}.json`. -/
def Store.get (store : Store) (id : Nat) : Option Record :=
  lookup_record id store.conversations

/-- Writing the file `{k}.json` with content `r`: replaces the record with
stem `k` if present, otherwise creates it (list order is immaterial, see the
module docstring). -/
def write_record (l : List (Nat × Record)) (k : Nat) (r : Record) : List (Nat × Record) :=
  (l.filter fun p => !(p.1 == k)) ++ [(k, r)]

/-- Removing the file `{id}.json` (`Path.unlink`), a no-op when absent. -/
def Store.erase (store : Store) (id : Nat) : Store :=
  { store with conversations := store.conversations.filter fun p => !(p.1 == id) }

/-- `load_conversation_to_state(conversation)`: copies the four record fields
into the session state. -/
def load_conversation_to_state (conversation : Conversation) (s : Session) : Session :=
  { s with
    conversation_id := some conversation.id
    conversation_name := some conversation.name
    messages := some conversation.messages
    chatbot_personality := some conversation.chatbot_personality }

/-- The default display name `f"Konwersacja {id}"` used by the missing-record
fallback, `save_conversation` and `create_new_conversation`. -/
def default_name (id : Nat) : String :=
  "Konwersacja " ++ toString id

/-- `load_current_conversation()`.  When `current.json` is absent it creates
and persists the first conversation and the pointer; when the pointer's
target file is absent it synthesizes a fallback conversation in memory only;
malformed JSON in `current.json` or in the target file escapes as a raised
`json.JSONDecodeError` (`StoreError.decodeError`). -/
def load_current_conversation (store : Store) (s : Session) :
    Except StoreError (Store × Session) :=
  match store.current with
  | none =>
      let conversation : Conversation := ⟨1, "Pierwsza konwersacja", DEFAULT_PERSONALITY, []⟩
      let store1 : Store :=
        { conversations := write_record store.conversations 1 (Record.ok conversation)
          current := some (PtrRecord.ok 1) }
      Except.ok (store1, load_conversation_to_state conversation s)
  | some (PtrRecord.corrupt _) => Except.error StoreError.decodeError
  | some (PtrRecord.ok conversation_id) =>
      match store.get conversation_id with
      | some (Record.ok conversation) =>
          Except.ok (store, load_conversation_to_state conversation s)
      | some (Record.corrupt _) => Except.error StoreError.decodeError
      | none =>
          let conversation : Conversation :=
            ⟨conversation_id, default_name conversation_id, DEFAULT_PERSONALITY, []⟩
          Except.ok (store, load_conversation_to_state conversation s)

/-- The record `save_conversation` assembles from the session state (each
field read with `st.session_state.get(key, default)`). -/
def session_conversation (s : Session) : Conversation :=
  let conversation_id := s.conversation_id.getD 1
  { id := conversation_id
    name := s.conversation_name.getD (default_name conversation_id)
    chatbot_personality := s.chatbot_personality.getD DEFAULT_PERSONALITY
    messages := s.messages.getD [] }

/-- One micro-step of a CPython `open(path, "w"); json.dump(...)` write:
opening in `"w"` mode first truncates the file in place (leaving malformed,
partial content until the dump completes), then the dump streams the full
record. -/
inductive WriteStep
  | truncate (key : Nat)
  | writeAll (key : Nat) (c : Conversation)
deriving DecidableEq

/-- Effect of one write micro-step on the store. -/
def applyStep (store : Store) : WriteStep → Store
  | WriteStep.truncate key =>
      { store with conversations := write_record store.conversations key (Record.corrupt "") }
  | WriteStep.writeAll key c =>
      { store with conversations := write_record store.conversations key (Record.ok c) }

/-- The micro-steps of `save_conversation()`: truncate
`{conversation_id}.json`, then stream the full record into it. -/
def save_conversation_steps (s : Session) : List WriteStep :=
  let conversation_id := s.conversation_id.getD 1
  [WriteStep.truncate conversation_id,
   WriteStep.writeAll conversation_id (session_conversation s)]

/-- `save_conversation()`: the completed write. -/
def save_conversation (store : Store) (s : Session) : Store :=
  (save_conversation_steps s).foldl applyStep store

/-- A write of record `c` at key `key` is atomic with respect to partial
writes when, after every prefix of its micro-steps, the stored record is
either still the old one or already the complete new one — never a
half-written, unreadable file. -/
def AtomicWrite (store : Store) (steps : List WriteStep) (key : Nat) (c : Conversation) : Prop :=
  ∀ pre suf, steps = pre ++ suf →
    (pre.foldl applyStep store).get key = store.get key ∨
    (pre.foldl applyStep store).get key = some (Record.ok c)

/-- The id scan of `create_new_conversation`: collect the integer stems of
all `*.json` files (corrupt files included — `glob` does not read contents)
and take `max(ids, default=0) + 1`. -/
def next_id (store : Store) : Nat :=
  (store.conversations.map Prod.fst).foldl max 0 + 1

/-- `create_new_conversation()`: allocates `next_id`, builds a conversation
with the default name and (always) the default personality, persists it,
sets it as current, and loads it into the session state (which re-asserts
the default personality). -/
def create_new_conversation (store : Store) (s : Session) : Store × Session :=
  let new_id := next_id store
  let conversation : Conversation := ⟨new_id, default_name new_id, DEFAULT_PERSONALITY, []⟩
  let store1 : Store :=
    { conversations := write_record store.conversations new_id (Record.ok conversation)
      current := some (PtrRecord.ok new_id) }
  let s1 := load_conversation_to_state conversation s
  (store1, { s1 with chatbot_personality := some DEFAULT_PERSONALITY })

/-- `switch_conversation(conversation_id)`: a no-op when the target file does
not exist; otherwise reads it (malformed JSON escapes as
`StoreError.decodeError`), sets the pointer and loads the session state. -/
def switch_conversation (store : Store) (s : Session) (conversation_id : Nat) :
    Except StoreError (Store × Session) :=
  match store.get conversation_id with
  | none => Except.ok (store, s)
  | some (Record.corrupt _) => Except.error StoreError.decodeError
  | some (Record.ok conversation) =>
      Except.ok ({ store with current := some (PtrRecord.ok conversation_id) },
                 load_conversation_to_state conversation s)

/-- One entry of the `list_conversations()` projection. -/
structure ConvSummary where
  id : Nat
  name : String
  message_count : Nat
deriving DecidableEq

/-- Projects one file to its summary; malformed files are skipped
(`except (json.JSONDecodeError, KeyError): continue`). -/
def summarize : Nat × Record → Option ConvSummary
  | (_, Record.ok c) => some ⟨c.id, c.name, c.messages.length⟩
  | (_, Record.corrupt _) => none

/-- Insert into a list sorted by descending `id`. -/
def insert_desc (x : ConvSummary) : List ConvSummary → List ConvSummary
  | [] => [x]
  | y :: ys => if y.id ≤ x.id then x :: y :: ys else y :: insert_desc x ys

/-- `sorted(conversations, key=id, reverse=True)`.  Any comparison sort
agrees with this insertion sort here because ids of distinct well-formed
records are distinct (one file per id). -/
def sort_desc (l : List ConvSummary) : List ConvSummary :=
  l.foldr insert_desc []

/-- `list_conversations()`: summaries of all readable records, sorted by
descending id. -/
def list_conversations (store : Store) : List ConvSummary :=
  sort_desc (store.conversations.filterMap summarize)

/-- Ids of the records that are well-formed (readable) on disk. -/
def ok_ids (store : Store) : List Nat :=
  store.conversations.filterMap fun p =>
    match p.2 with
    | Record.ok _ => some p.1
    | Record.corrupt _ => none

/-- `delete_conversation(conversation_id)`: unlink the file, and when the
deleted id is the session's active conversation, switch to the
highest-id remaining conversation or create a fresh one if none remain. -/
def delete_conversation (store : Store) (s : Session) (conversation_id : Nat) :
    Except StoreError (Store × Session) :=
  let store1 := store.erase conversation_id
  if s.conversation_id = some conversation_id then
    match list_conversations store1 with
    | [] => Except.ok (create_new_conversation store1 s)
    | top :: _ => switch_conversation store1 s top.id
  else
    Except.ok (store1, s)

/-- Per-record well-formedness: a readable record's content `id` equals its
file stem (every write in the source maintains this). -/
def record_id_ok (p : Nat × Record) : Bool :=
  match p.2 with
  | Record.ok c => p.1 == c.id
  | Record.corrupt _ => true

/-- Store well-formedness: file stems are distinct (a directory cannot hold
two files of the same name) and each readable record carries its stem as its
`id`. -/
def Store.WF (store : Store) : Prop :=
  (store.conversations.map Prod.fst).Nodup ∧
    ∀ p ∈ store.conversations, record_id_ok p = true

instance (store : Store) : Decidable store.WF := by
  unfold Store.WF; infer_instance

/-- The lifecycle operations a user can interleave: creating a new
conversation and deleting one. -/
inductive Op
  | create
  | delete (id : Nat)
deriving DecidableEq

/-- Runs a sequence of lifecycle operations, collecting the ids assigned by
the `create_new_conversation` calls (an erroring `delete` stops the run). -/
def runOps : Store × Session → List Op → Except StoreError ((Store × Session) × List Nat)
  | st, [] => Except.ok (st, [])
  | st, Op.create :: ops =>
      match runOps (create_new_conversation st.1 st.2) ops with
      | Except.ok (st', ids) => Except.ok (st', next_id st.1 :: ids)
      | Except.error e => Except.error e
  | st, Op.delete id :: ops =>
      match delete_conversation st.1 st.2 id with
      | Except.ok st' => runOps st' ops
      | Except.error e => Except.error e

/-- The empty store (fresh `db` directory) and an empty session state. -/
def store0 : Store := ⟨[], none⟩

/-- A session state none of whose keys have been set yet. -/
def sess0 : Session := ⟨none, none, none, none⟩

/-- The two messages of the spec's cost scenario: usages
`{prompt_tokens: 100, completion_tokens: 50}` and
`{prompt_tokens: 10, completion_tokens: 5}`. -/
def scenario_messages : List Message :=
  [ ⟨Role.assistant, "", some ⟨some 100, some 50, none, none⟩⟩,
    ⟨Role.assistant, "", some ⟨some 10, some 5, none, none⟩⟩ ]

/-- The spec scenario's pricing `{input: 0.05/1e6, output: 0.40/1e6}` (the
`gpt-5-nano` prices). -/
def scenario_pricing : Pricing := ⟨"", 0.05 / 1000000, 0.40 / 1000000⟩

/-- Fixture: the spec scenario store holding conversations {1, 2, 3} with
conversation 2 current. -/
def store123 : Store :=
  ⟨[(1, Record.ok ⟨1, "a", "p", []⟩), (2, Record.ok ⟨2, "b", "p", []⟩),
    (3, Record.ok ⟨3, "c", "p", []⟩)], some (PtrRecord.ok 2)⟩

/-- Fixture: a session whose active conversation is 2. -/
def sess2 : Session := ⟨some 2, some "b", some [], some "p"⟩

/-- Fixture: a store already holding a record for conversation 1. -/
def old_store : Store := ⟨[(1, Record.ok ⟨1, "old", "p", []⟩)], some (PtrRecord.ok 1)⟩

/-- Fixture: a session about to overwrite conversation 1 with new content. -/
def sess_new : Session := ⟨some 1, some "new", some [], some "p"⟩

/-! ## Cost accountant -/

theorem cost_step_eq (pricing : Pricing) (acc : Rat × Rat) (m : Message) :
    cost_step pricing acc m = (acc.1 + message_cost pricing m, acc.2 + message_time m) := by
  cases h : m.usage with
  | none => simp [cost_step, message_cost, message_time, h]
  | some u => simp [cost_step, message_cost, message_time, h, add_assoc]

theorem cost_foldl (pricing : Pricing) (ms : List Message) (acc : Rat × Rat) :
    ms.foldl (cost_step pricing) acc =
      (acc.1 + (ms.map (message_cost pricing)).sum, acc.2 + (ms.map message_time).sum) := by
  induction ms generalizing acc with
  | nil => simp
  | cons m rest ih =>
      simp only [List.foldl_cons, List.map_cons, List.sum_cons]
      rw [ih, cost_step_eq]
      simp [add_assoc]

theorem calculate_eq_sum (pricing : Pricing) (ms : List Message) :
    calculate_conversation_cost ms pricing =
      ((ms.map (message_cost pricing)).sum, (ms.map message_time).sum) := by
  unfold calculate_conversation_cost
  rw [cost_foldl]
  simp

/-- C3: `calculate_conversation_cost` is a fold over the messages.  Permuting
the message sequence leaves both totals unchanged; a message without a
`usage` key, or with the empty usage dict, contributes exactly `0` to both
accumulators; a message with usage `u` contributes
`prompt_tokens * input_token_price + completion_tokens * output_token_price`
to the cost and its response time to the time; and on the spec scenario
(usages `{100, 50}` and `{10, 5}` under pricing `{0.05/1e6, 0.40/1e6}`) the
total cost equals `(110 * 0.05 + 55 * 0.40) / 1e6`. -/
theorem cost_and_time_properties (ms1 ms2 : List Message) (pricing : Pricing)
    (hperm : List.Perm ms1 ms2) :
    calculate_conversation_cost ms1 pricing = calculate_conversation_cost ms2 pricing ∧
    (∀ (m : Message) (rest : List Message),
        m.usage = none ∨ m.usage = some Usage.empty →
        calculate_conversation_cost (m :: rest) pricing =
          calculate_conversation_cost rest pricing) ∧
    (∀ (m : Message) (u : Usage) (rest : List Message), m.usage = some u →
        calculate_conversation_cost (m :: rest) pricing =
          ((u.prompt_tokens.getD 0 : Rat) * pricing.input_tokens
             + (u.completion_tokens.getD 0 : Rat) * pricing.output_tokens
             + (calculate_conversation_cost rest pricing).1,
           u.response_time.getD 0 + (calculate_conversation_cost rest pricing).2)) ∧
    (calculate_conversation_cost scenario_messages scenario_pricing).1 =
      (110 * (0.05 : Rat) + 55 * (0.40 : Rat)) / 1000000 := by
  refine ⟨?_, ?_, ?_, ?_⟩
  · rw [calculate_eq_sum, calculate_eq_sum]
    exact congrArg₂ Prod.mk (List.Perm.sum_eq (hperm.map _)) (List.Perm.sum_eq (hperm.map _))
  · intro m rest hm
    rw [calculate_eq_sum, calculate_eq_sum]
    have hc : message_cost pricing m = 0 := by
      rcases hm with h | h <;> simp [message_cost, h, Usage.empty]
    have ht : message_time m = 0 := by
      rcases hm with h | h <;> simp [message_time, h, Usage.empty]
    simp [hc, ht]
  · intro m u rest hm
    rw [calculate_eq_sum, calculate_eq_sum]
    simp [message_cost, message_time, hm, add_comm]
  · norm_num [calculate_conversation_cost, cost_step, scenario_messages, scenario_pricing]

theorem cost_and_time_properties_witness :
    calculate_conversation_cost scenario_messages scenario_pricing =
      calculate_conversation_cost scenario_messages.reverse scenario_pricing ∧
    (calculate_conversation_cost scenario_messages scenario_pricing).1 =
      (110 * (0.05 : Rat) + 55 * (0.40 : Rat)) / 1000000 :=
  ⟨(cost_and_time_properties scenario_messages scenario_messages.reverse scenario_pricing
      (List.reverse_perm scenario_messages).symm).1,
   (cost_and_time_properties scenario_messages scenario_messages scenario_pricing
      (List.Perm.refl scenario_messages)).2.2.2⟩

/-! ## Chat orchestrator -/

/-- C4: when the model call fails, `chatbot_reply` returns (never raises) an
assistant message whose content is the fixed error template embedding the
failure description and whose usage is the empty dict, and that message
contributes exactly `0` cost and `0` time to `calculate_conversation_cost`
under every pricing. -/
theorem chatbot_reply_error_turn (user_prompt : String) (memory : List Message)
    (file_content : Option String) (personality : String) (e : String) (pricing : Pricing) :
    chatbot_reply user_prompt memory file_content personality (Except.error e) =
      { role := Role.assistant, content := error_reply_content e, usage := some Usage.empty } ∧
    calculate_conversation_cost
        [chatbot_reply user_prompt memory file_content personality (Except.error e)] pricing
      = (0, 0) := by
  refine ⟨rfl, ?_⟩
  simp [calculate_conversation_cost, cost_step, chatbot_reply, Usage.empty]

/-- C8 counterexample: a model response with `finish_reason = "stop"` whose
own content already is the truncation notice; `chatbot_reply` returns that
content unchanged, so the returned content of a `"stop"` call can contain
the notice — the claim's "never contains that notice" fails at this input. -/
theorem finish_reason_stop_notice_counterexample :
    (⟨some truncation_notice, "stop", none⟩ : ModelResponse).finish_reason = "stop" ∧
    (chatbot_reply "hi" [] none DEFAULT_PERSONALITY
        (Except.ok (⟨some truncation_notice, "stop", none⟩, 0))).content = truncation_notice :=
  ⟨rfl, rfl⟩

/-- C8 (amended): if `finish_reason = "length"` the returned assistant
content is the model's content with the fixed truncation notice appended
(hence it ends with the notice); for every other `finish_reason` (in
particular `"stop"`) the returned content equals the model's content
unchanged, so the notice is never appended and occurs only if the model's
own content already contained it. -/
theorem truncation_notice_policy (user_prompt : String) (memory : List Message)
    (file_content : Option String) (personality : String)
    (response : ModelResponse) (elapsed : Rat) :
    (response.finish_reason = "length" →
      (chatbot_reply user_prompt memory file_content personality
          (Except.ok (response, elapsed))).content =
        response.content.getD "" ++ truncation_notice) ∧
    (response.finish_reason ≠ "length" →
      (chatbot_reply user_prompt memory file_content personality
          (Except.ok (response, elapsed))).content = response.content.getD "") := by
  constructor
  · intro h
    simp [chatbot_reply, h]
  · intro h
    simp [chatbot_reply, h]

theorem truncation_notice_policy_witness :
    (chatbot_reply "q" [] none DEFAULT_PERSONALITY
        (Except.ok (⟨some "abc", "length", none⟩, 0))).content = "abc" ++ truncation_notice ∧
    (chatbot_reply "q" [] none DEFAULT_PERSONALITY
        (Except.ok (⟨some "abc", "stop", none⟩, 0))).content = "abc" :=
  ⟨(truncation_notice_policy "q" [] none DEFAULT_PERSONALITY ⟨some "abc", "length", none⟩ 0).1
      rfl,
   (truncation_notice_policy "q" [] none DEFAULT_PERSONALITY ⟨some "abc", "stop", none⟩ 0).2
      (by decide)⟩

/-! ## Store lemmas -/

theorem lookup_record_append (id : Nat) (l1 l2 : List (Nat × Record)) :
    lookup_record id (l1 ++ l2) =
      match lookup_record id l1 with
      | some r => some r
      | none => lookup_record id l2 := by
  induction l1 with
  | nil => simp [lookup_record]
  | cons p rest ih =>
      by_cases h : p.1 = id
      · simp [lookup_record, h]
      · simp [lookup_record, h, ih]

theorem lookup_filter_out (l : List (Nat × Record)) (k : Nat) :
    lookup_record k (l.filter fun p => !(p.1 == k)) = none := by
  induction l with
  | nil => rfl
  | cons p rest ih =>
      by_cases h : p.1 = k
      · simp [h, ih]
      · simp [List.filter_cons, h, lookup_record, ih]

theorem lookup_filter_ne (l : List (Nat × Record)) (id k : Nat) (h : id ≠ k) :
    lookup_record id (l.filter fun p => !(p.1 == k)) = lookup_record id l := by
  induction l with
  | nil => rfl
  | cons p rest ih =>
      by_cases hp : p.1 = k
      · have hne : ¬(k = id) := fun hc => h hc.symm
        simp [List.filter_cons, hp, lookup_record, hne, ih]
      · by_cases hid : p.1 = id
        · simp [List.filter_cons, hp, lookup_record, hid, h]
        · simp [List.filter_cons, hp, lookup_record, hid, ih]

theorem lookup_write_self (l : List (Nat × Record)) (k : Nat) (r : Record) :
    lookup_record k (write_record l k r) = some r := by
  unfold write_record
  rw [lookup_record_append, lookup_filter_out]
  simp [lookup_record]

theorem lookup_write_other (l : List (Nat × Record)) (id k : Nat) (r : Record) (h : id ≠ k) :
    lookup_record id (write_record l k r) = lookup_record id l := by
  unfold write_record
  rw [lookup_record_append, lookup_filter_ne l id k h]
  cases hl : lookup_record id l with
  | some r' => rfl
  | none =>
      have hne : ¬(k = id) := fun hc => h hc.symm
      simp [lookup_record, hne]

theorem le_foldl_max (l : List Nat) (a : Nat) : a ≤ l.foldl max a := by
  induction l generalizing a with
  | nil => exact le_refl a
  | cons b t ih => exact le_trans (le_max_left a b) (ih (max a b))

theorem mem_le_foldl_max (l : List Nat) (a k : Nat) (h : k ∈ l) : k ≤ l.foldl max a := by
  induction l generalizing a with
  | nil => cases h
  | cons b t ih =>
      rcases List.mem_cons.mp h with rfl | hk
      · exact le_trans (le_max_right a k) (le_foldl_max t (max a k))
      · exact ih (max a b) hk

theorem next_id_gt_key (store : Store) (k : Nat)
    (h : k ∈ store.conversations.map Prod.fst) : k < next_id store :=
  Nat.lt_succ_of_le (mem_le_foldl_max _ 0 k h)

theorem mem_keys_write_self (l : List (Nat × Record)) (k : Nat) (r : Record) :
    k ∈ (write_record l k r).map Prod.fst := by
  simp [write_record]

theorem mem_keys_write_of (l : List (Nat × Record)) (k k' : Nat) (r : Record)
    (h1 : k' ∈ l.map Prod.fst) (h2 : k' ≠ k) :
    k' ∈ (write_record l k r).map Prod.fst := by
  rcases List.mem_map.mp h1 with ⟨p, hp, hpk⟩
  apply List.mem_map.mpr
  refine ⟨p, ?_, hpk⟩
  simp only [write_record, List.mem_append, List.mem_filter]
  exact Or.inl ⟨hp, by simp [hpk, h2]⟩

theorem lookup_of_mem_nodup (l : List (Nat × Record)) (k : Nat) (r : Record)
    (hnd : (l.map Prod.fst).Nodup) (hm : (k, r) ∈ l) :
    lookup_record k l = some r := by
  induction l with
  | nil => cases hm
  | cons p rest ih =>
      rcases List.mem_cons.mp hm with rfl | hm'
      · simp [lookup_record]
      · have hk_ne : p.1 ≠ k := by
          intro hpk
          have : k ∈ rest.map Prod.fst := List.mem_map.mpr ⟨(k, r), hm', rfl⟩
          rw [List.map_cons, List.nodup_cons] at hnd
          exact hnd.1 (hpk ▸ this)
        simp [lookup_record, hk_ne, ih (List.nodup_cons.mp (by rw [List.map_cons] at hnd; exact hnd)).2 hm']

theorem erase_WF (store : Store) (cid : Nat) (hwf : store.WF) : (store.erase cid).WF := by
  obtain ⟨hnd, hok⟩ := hwf
  constructor
  · exact List.Nodup.sublist (List.Sublist.map Prod.fst (List.filter_sublist _)) hnd
  · intro p hp
    exact hok p (List.mem_of_mem_filter hp)

theorem mem_ok_ids (store : Store) (k : Nat) :
    k ∈ ok_ids store ↔ ∃ c, (k, Record.ok c) ∈ store.conversations := by
  unfold ok_ids
  rw [List.mem_filterMap]
  constructor
  · rintro ⟨⟨k', r⟩, hm, hr⟩
    cases r with
    | ok c =>
        simp only [Option.some.injEq] at hr
        subst hr
        exact ⟨c, hm⟩
    | corrupt raw => simp at hr
  · rintro ⟨c, hc⟩
    exact ⟨(k, Record.ok c), hc, rfl⟩

theorem insert_desc_ne_nil (x : ConvSummary) (s : List ConvSummary) : insert_desc x s ≠ [] := by
  cases s with
  | nil => simp [insert_desc]
  | cons y ys =>
      unfold insert_desc
      by_cases h : y.id ≤ x.id <;> simp [h]

theorem mem_insert_desc (x y : ConvSummary) (s : List ConvSummary) :
    y ∈ insert_desc x s ↔ y = x ∨ y ∈ s := by
  induction s with
  | nil => simp [insert_desc]
  | cons z zs ih =>
      unfold insert_desc
      by_cases h : z.id ≤ x.id
      · simp [h]
      · simp [h, ih]
        tauto

theorem sort_desc_cons (x : ConvSummary) (l : List ConvSummary) :
    sort_desc (x :: l) = insert_desc x (sort_desc l) := rfl

theorem mem_sort_desc (y : ConvSummary) (l : List ConvSummary) :
    y ∈ sort_desc l ↔ y ∈ l := by
  induction l with
  | nil => simp [sort_desc]
  | cons x xs ih =>
      rw [sort_desc_cons, mem_insert_desc]
      simp [ih]

theorem sort_desc_eq_nil (l : List ConvSummary) (h : sort_desc l = []) : l = [] := by
  cases l with
  | nil => rfl
  | cons x xs => exact absurd h (insert_desc_ne_nil x (sort_desc xs))

theorem pairwise_insert_desc (x : ConvSummary) (s : List ConvSummary)
    (hs : s.Pairwise (fun a b => b.id ≤ a.id)) :
    (insert_desc x s).Pairwise (fun a b => b.id ≤ a.id) := by
  induction s with
  | nil => simp [insert_desc]
  | cons y ys ih =>
      rw [List.pairwise_cons] at hs
      unfold insert_desc
      by_cases h : y.id ≤ x.id
      · rw [if_pos h]
        refine List.Pairwise.cons ?_ (List.Pairwise.cons hs.1 hs.2)
        intro z hz
        rcases List.mem_cons.mp hz with rfl | hz'
        · exact h
        · exact le_trans (hs.1 z hz') h
      · rw [if_neg h]
        refine List.Pairwise.cons ?_ (ih hs.2)
        intro z hz
        rcases (mem_insert_desc x z ys).mp hz with rfl | hz'
        · exact le_of_not_le h
        · exact hs.1 z hz'

theorem pairwise_sort_desc (l : List ConvSummary) :
    (sort_desc l).Pairwise (fun a b => b.id ≤ a.id) := by
  induction l with
  | nil => simp [sort_desc]
  | cons x xs ih =>
      rw [sort_desc_cons]
      exact pairwise_insert_desc x (sort_desc xs) ih

theorem ok_ids_nil_of_list_nil (store : Store) (h : list_conversations store = []) :
    ok_ids store = [] := by
  unfold list_conversations at h
  have h2 := sort_desc_eq_nil _ h
  rw [List.filterMap_eq_nil_iff] at h2
  unfold ok_ids
  rw [List.filterMap_eq_nil_iff]
  intro p hp
  have hnone := h2 p hp
  obtain ⟨k, r⟩ := p
  cases r with
  | ok c => simp [summarize] at hnone
  | corrupt raw => rfl

/-! ## Lifecycle manager -/

/-- C2: deleting the session's active conversation always succeeds and leaves
the current pointer on a conversation record that exists (and is readable) in
the store: the remaining readable conversation with the highest id when any
remain, and a freshly allocated conversation when none remain.  `store.WF`
states the representation invariant every write of the source maintains:
one file per id, the file stem being the record's id. -/
theorem delete_active_pointer_valid (store : Store) (s : Session) (cid : Nat)
    (hwf : store.WF) (hs : s.conversation_id = some cid) :
    ∃ r, delete_conversation store s cid = Except.ok r ∧
      ∃ cur, r.1.current = some (PtrRecord.ok cur) ∧
        (∃ c, r.1.get cur = some (Record.ok c)) ∧
        (ok_ids (store.erase cid) ≠ [] →
          cur ∈ ok_ids (store.erase cid) ∧ ∀ k ∈ ok_ids (store.erase cid), k ≤ cur) ∧
        (ok_ids (store.erase cid) = [] → cur = next_id (store.erase cid)) := by
  have hwf1 : (store.erase cid).WF := erase_WF store cid hwf
  unfold delete_conversation
  rw [hs, if_pos rfl]
  cases hlist : list_conversations (store.erase cid) with
  | nil =>
      have hempty : ok_ids (store.erase cid) = [] := ok_ids_nil_of_list_nil _ hlist
      refine ⟨create_new_conversation (store.erase cid) s, rfl,
        next_id (store.erase cid), rfl, ⟨_, lookup_write_self _ _ _⟩, ?_, fun _ => rfl⟩
      intro hne
      exact absurd hempty hne
  | cons top rest =>
      have htop_mem : top ∈ (store.erase cid).conversations.filterMap summarize := by
        rw [← mem_sort_desc]
        show top ∈ list_conversations (store.erase cid)
        rw [hlist]
        exact List.mem_cons_self _ _
      obtain ⟨p, hp, hsum⟩ := List.mem_filterMap.mp htop_mem
      obtain ⟨k, r⟩ := p
      cases r with
      | corrupt raw => simp [summarize] at hsum
      | ok c =>
          simp only [summarize, Option.some.injEq] at hsum
          subst hsum
          have hkid : k = c.id := by
            have h := hwf1.2 (k, Record.ok c) hp
            simpa [record_id_ok] using h
          have hp' : (c.id, Record.ok c) ∈ (store.erase cid).conversations := hkid ▸ hp
          have hlook : (store.erase cid).get c.id = some (Record.ok c) :=
            lookup_of_mem_nodup _ _ _ hwf1.1 hp'
          have hcur_mem : c.id ∈ ok_ids (store.erase cid) :=
            (mem_ok_ids _ _).mpr ⟨c, hp'⟩
          have hmax : ∀ k' ∈ ok_ids (store.erase cid), k' ≤ c.id := by
            intro k' hk'
            obtain ⟨c', hc'⟩ := (mem_ok_ids _ _).mp hk'
            have hk'id : k' = c'.id := by
              have h := hwf1.2 (k', Record.ok c') hc'
              simpa [record_id_ok] using h
            have hsum' : (⟨c'.id, c'.name, c'.messages.length⟩ : ConvSummary) ∈
                (store.erase cid).conversations.filterMap summarize :=
              List.mem_filterMap.mpr ⟨(k', Record.ok c'), hc', rfl⟩
            have hmem' : (⟨c'.id, c'.name, c'.messages.length⟩ : ConvSummary) ∈
                list_conversations (store.erase cid) := (mem_sort_desc _ _).mpr hsum'
            rw [hlist] at hmem'
            have hpair := pairwise_sort_desc ((store.erase cid).conversations.filterMap summarize)
            have hpair' : (List.Pairwise (fun a b => b.id ≤ a.id)
                (list_conversations (store.erase cid))) := hpair
            rw [hlist, List.pairwise_cons] at hpair'
            rcases List.mem_cons.mp hmem' with heq | hmem''
            · rw [hk'id]
              have h : (⟨c'.id, c'.name, c'.messages.length⟩ : ConvSummary).id =
                  (⟨c.id, c.name, c.messages.length⟩ : ConvSummary).id := by rw [heq]
              exact le_of_eq (by simpa using h)
            · have := hpair'.1 _ hmem''
              rw [hk'id]
              simpa using this
          refine ⟨({ store.erase cid with current := some (PtrRecord.ok c.id) },
                   load_conversation_to_state c s), ?_, c.id, rfl, ⟨c, hlook⟩, ?_, ?_⟩
          · show switch_conversation (store.erase cid) s
                (⟨c.id, c.name, c.messages.length⟩ : ConvSummary).id = _
            unfold switch_conversation
            rw [show ((store.erase cid).get (⟨c.id, c.name, c.messages.length⟩ :
                ConvSummary).id) = some (Record.ok c) from hlook]
          · intro _
            exact ⟨hcur_mem, hmax⟩
          · intro he
            rw [he] at hcur_mem
            cases hcur_mem

theorem delete_active_pointer_valid_witness :
    ∃ r, delete_conversation store123 sess2 2 = Except.ok r ∧
      ∃ cur, r.1.current = some (PtrRecord.ok cur) ∧
        (∃ c, r.1.get cur = some (Record.ok c)) ∧
        (ok_ids (store123.erase 2) ≠ [] →
          cur ∈ ok_ids (store123.erase 2) ∧ ∀ k ∈ ok_ids (store123.erase 2), k ≤ cur) ∧
        (ok_ids (store123.erase 2) = [] → cur = next_id (store123.erase 2)) :=
  delete_active_pointer_valid store123 sess2 2 (by decide) rfl

/-- C1 counterexample: starting from the empty store, the call sequence
`create_new(); create_new(); delete(2); create_new()` assigns the ids
1, 2, 2: deleting the conversation with the highest id makes the
`max existing + 1` allocation re-assign a previously assigned id, so under
interleaved deletions the assigned ids are neither strictly increasing nor
free of reuse, refuting the claim. -/
theorem create_id_reuse_counterexample :
    (runOps (store0, sess0) [Op.create, Op.create, Op.delete 2, Op.create]).map
        (fun r => r.2) = Except.ok [1, 2, 2] ∧
    ¬ List.Pairwise (fun a b : Nat => a < b) [1, 2, 2] ∧
    ¬ List.Nodup [1, 2, 2] :=
  ⟨rfl, by decide, by decide⟩

/-- C1 (amended): each `create_new()` call assigns `max existing + 1`, an id
strictly greater than every id present in the store at creation time; along
any sequence of `create_new()` calls with no intervening deletions the
assigned ids are strictly increasing — hence never reused and never equal to
an id that existed at the start.  (Reuse can occur once a deletion removes
the maximal id, as the counterexample shows.) -/
theorem create_ids_strictly_increasing (store : Store) (s : Session) (n : Nat)
    (result : (Store × Session) × List Nat)
    (h : runOps (store, s) (List.replicate n Op.create) = Except.ok result) :
    List.Pairwise (fun a b => a < b) result.2 ∧
    ∀ k ∈ store.conversations.map Prod.fst, ∀ i ∈ result.2, k < i := by
  induction n generalizing store s result with
  | zero =>
      simp only [List.replicate, runOps, Except.ok.injEq] at h
      subst h
      exact ⟨List.Pairwise.nil, by simp⟩
  | succ n ih =>
      rw [List.replicate_succ] at h
      simp only [runOps] at h
      cases hrec : runOps (create_new_conversation store s) (List.replicate n Op.create) with
      | error e =>
          rw [hrec] at h
          cases h
      | ok pr =>
          obtain ⟨st', ids⟩ := pr
          rw [hrec] at h
          simp only [Except.ok.injEq] at h
          subst h
          obtain ⟨ih1, ih2⟩ := ih (create_new_conversation store s).1
            (create_new_conversation store s).2 (st', ids) hrec
          constructor
          · refine List.Pairwise.cons ?_ ih1
            intro i hi
            exact ih2 (next_id store) (mem_keys_write_self _ _ _) i hi
          · intro k hk i hi
            rcases List.mem_cons.mp hi with rfl | hi'
            · exact next_id_gt_key store k hk
            · exact ih2 k
                (mem_keys_write_of _ _ _ _ hk (ne_of_lt (next_id_gt_key store k hk))) i hi'

theorem create_ids_strictly_increasing_witness :
    List.Pairwise (fun a b : Nat => a < b) ([1, 2] : List Nat) ∧
    ∀ k ∈ store0.conversations.map Prod.fst, ∀ i ∈ ([1, 2] : List Nat), k < i :=
  create_ids_strictly_increasing store0 sess0 2
    ((⟨[(1, Record.ok ⟨1, default_name 1, DEFAULT_PERSONALITY, []⟩),
        (2, Record.ok ⟨2, default_name 2, DEFAULT_PERSONALITY, []⟩)],
       some (PtrRecord.ok 2)⟩,
      ⟨some 2, some (default_name 2), some [], some DEFAULT_PERSONALITY⟩), [1, 2])
    rfl

/-! ## Persistence -/

/-- C5 counterexample: `save_conversation` opens the target file in `"w"`
mode, which truncates it in place before the record is streamed; the prefix
of the write that stops after the truncation leaves the record neither in
its old state nor fully written — the write is not atomic with respect to
partial writes (no temp-write-then-rename). -/
theorem save_not_atomic_counterexample :
    ¬ AtomicWrite old_store (save_conversation_steps sess_new) 1
        (session_conversation sess_new) := by
  intro h
  have h1 := h [WriteStep.truncate 1]
      [WriteStep.writeAll 1 (session_conversation sess_new)] rfl
  revert h1
  decide

/-- C5 (amended): a completed `save_conversation` write stores the full
record assembled from the session under the session's conversation id,
overwriting any existing record with that id, and leaves every other record
and the current pointer unchanged; but the write is not atomic (in-place
truncate then write, as the counterexample shows). -/
theorem save_overwrites_full_record (store : Store) (s : Session) (k : Nat)
    (hk : k ≠ s.conversation_id.getD 1) :
    (save_conversation store s).get (s.conversation_id.getD 1) =
      some (Record.ok (session_conversation s)) ∧
    (save_conversation store s).get k = store.get k ∧
    (save_conversation store s).current = store.current := by
  refine ⟨?_, ?_, rfl⟩
  · exact lookup_write_self _ _ _
  · show lookup_record k
        (write_record
          (write_record store.conversations (s.conversation_id.getD 1) (Record.corrupt ""))
          (s.conversation_id.getD 1) (Record.ok (session_conversation s))) = store.get k
    rw [lookup_write_other _ _ _ _ hk, lookup_write_other _ _ _ _ hk]
    rfl

theorem save_overwrites_full_record_witness :
    (save_conversation old_store sess_new).get 1 =
      some (Record.ok (session_conversation sess_new)) ∧
    (save_conversation old_store sess_new).get 2 = old_store.get 2 ∧
    (save_conversation old_store sess_new).current = old_store.current :=
  save_overwrites_full_record old_store sess_new 2 (by decide)

/-- C6 counterexample: a store whose pointer targets a record that exists
but is corrupt; `load_current_conversation` terminates with the raised
`decodeError` rather than recovering, refuting the claim that no such error
is fatal for `load_current_conversation`/`switch_conversation`. -/
theorem corrupt_record_crashes_load_counterexample :
    (⟨[(1, Record.corrupt "oops")], some (PtrRecord.ok 1)⟩ : Store).get 1 =
      some (Record.corrupt "oops") ∧
    load_current_conversation ⟨[(1, Record.corrupt "oops")], some (PtrRecord.ok 1)⟩ sess0 =
      Except.error StoreError.decodeError :=
  ⟨rfl, rfl⟩

/-- C6 (amended): reading a malformed persisted record signals a
`decodeError`, distinct from `notFound`; but the error is unhandled in the
loaders: whenever the referenced record exists and is corrupt,
`load_current_conversation` (when the pointer targets it) and
`switch_conversation` terminate with that raised `decodeError` instead of
recovering (only `list_conversations` skips corrupt records). -/
theorem decode_error_policy (store : Store) (s : Session) (cid : Nat) (raw : String)
    (hcorrupt : store.get cid = some (Record.corrupt raw)) :
    StoreError.decodeError ≠ StoreError.notFound ∧
    (store.current = some (PtrRecord.ok cid) →
      load_current_conversation store s = Except.error StoreError.decodeError) ∧
    switch_conversation store s cid = Except.error StoreError.decodeError := by
  refine ⟨by decide, ?_, ?_⟩
  · intro hcur
    simp [load_current_conversation, hcur, hcorrupt]
  · simp [switch_conversation, hcorrupt]

theorem decode_error_policy_witness :
    load_current_conversation ⟨[(2, Record.corrupt "xx")], some (PtrRecord.ok 2)⟩ sess0 =
      Except.error StoreError.decodeError ∧
    switch_conversation ⟨[(2, Record.corrupt "xx")], some (PtrRecord.ok 2)⟩ sess0 2 =
      Except.error StoreError.decodeError :=
  ⟨(decode_error_policy ⟨[(2, Record.corrupt "xx")], some (PtrRecord.ok 2)⟩ sess0 2 "xx"
      rfl).2.1 rfl,
   (decode_error_policy ⟨[(2, Record.corrupt "xx")], some (PtrRecord.ok 2)⟩ sess0 2 "xx"
      rfl).2.2⟩

/-- C7 counterexample: on an empty store the bootstrap names the first
conversation "Pierwsza konwersacja", not the default name pattern
`"Konwersacja 1"` the claim requires for id 1. -/
theorem bootstrap_name_counterexample :
    (load_current_conversation store0 sess0).map (fun r => r.2.conversation_name) =
      Except.ok (some "Pierwsza konwersacja") ∧
    "Pierwsza konwersacja" ≠ default_name 1 :=
  ⟨rfl, by decide⟩

/-- C7 (amended): on an empty store (no `current.json`),
`load_current_conversation` creates exactly one conversation, with id 1, the
fixed first-run name "Pierwsza konwersacja" (not the default name pattern),
the default personality and an empty message list; it persists that record,
sets the pointer to 1 and loads the conversation into the session. -/
theorem bootstrap_empty_store (store : Store) (s : Session)
    (hconvs : store.conversations = []) (hcur : store.current = none) :
    load_current_conversation store s =
      Except.ok
        (⟨[(1, Record.ok ⟨1, "Pierwsza konwersacja", DEFAULT_PERSONALITY, []⟩)],
          some (PtrRecord.ok 1)⟩,
         load_conversation_to_state ⟨1, "Pierwsza konwersacja", DEFAULT_PERSONALITY, []⟩ s) := by
  simp [load_current_conversation, hcur, hconvs, write_record]

theorem bootstrap_empty_store_witness :
    load_current_conversation store0 sess0 =
      Except.ok
        (⟨[(1, Record.ok ⟨1, "Pierwsza konwersacja", DEFAULT_PERSONALITY, []⟩)],
          some (PtrRecord.ok 1)⟩,
         load_conversation_to_state ⟨1, "Pierwsza konwersacja", DEFAULT_PERSONALITY, []⟩
           sess0) :=
  bootstrap_empty_store store0 sess0 rfl rfl

/-- C9: for every prior store and session state — in particular one whose
active conversation carries a customized personality —
`create_new_conversation` persists a conversation whose personality is
exactly the default and whose name is the default pattern for the new id
(never inherited from the previous conversation), and loads the default
personality into the session. -/
theorem create_new_resets_personality (store : Store) (s : Session) :
    (create_new_conversation store s).1.get (next_id store) =
      some (Record.ok
        ⟨next_id store, default_name (next_id store), DEFAULT_PERSONALITY, []⟩) ∧
    (create_new_conversation store s).2.chatbot_personality = some DEFAULT_PERSONALITY ∧
    (create_new_conversation store s).2.conversation_name =
      some (default_name (next_id store)) := by
  refine ⟨?_, rfl, rfl⟩
  exact lookup_write_self _ _ _

/-- C10: when `current.json` points at id `cid` but `{cid}.json` is missing,
`load_current_conversation` synthesizes the fallback conversation only in
the in-memory session snapshot: the returned store is exactly the input
store (neither the synthesized record nor the pointer is written), and the
session holds the fallback conversation — that id, the default name
pattern, the default personality, empty messages. -/
theorem load_fallback_in_memory_only (store : Store) (s : Session) (cid : Nat)
    (hcur : store.current = some (PtrRecord.ok cid))
    (hmiss : store.get cid = none) :
    load_current_conversation store s =
      Except.ok (store,
        load_conversation_to_state ⟨cid, default_name cid, DEFAULT_PERSONALITY, []⟩ s) := by
  simp [load_current_conversation, hcur, hmiss]

theorem load_fallback_in_memory_only_witness :
    load_current_conversation ⟨[], some (PtrRecord.ok 5)⟩ sess0 =
      Except.ok (⟨[], some (PtrRecord.ok 5)⟩,
        load_conversation_to_state ⟨5, default_name 5, DEFAULT_PERSONALITY, []⟩ sess0) :=
  load_fallback_in_memory_only ⟨[], some (PtrRecord.ok 5)⟩ sess0 5 rfl rfl
